import Mathlib

/-!
Verification of the lrpc RPC framework (go.arsenm.dev/lrpc).

The Go code is shallowly embedded: reflective values become an inductive
`GoValue` with a computable `typeOf`, the `reflectutil` conversion helpers
become computable Lean functions, and the server / client state (receiver
registry, active-channel map, call-site map, per-call context) becomes
explicit state passed through pure functions.  Runtime faults (failed type
assertions, `close` of a closed channel, `Set` of a non-assignable value)
are modelled as explicit failure results.
-/

namespace LRPC

/-- Go reflect kinds, restricted to the types the lrpc code manipulates. -/
inductive GoKind where
  | kInt
  | kInt64
  | kBool
  | kString
  | kIface
  | kPtr
  | kSlice
  | kArray
  deriving DecidableEq

/-- The Go types that flow through lrpc's reflective dispatch: scalars,
strings, the `error` and `interface\x7b\x7d` interfaces, `*server.Context`,
pointers, slices and arrays.  `tSlice tAny` is Go's `[]interface\x7b\x7d`. -/
inductive GoType where
  | tInt
  | tInt64
  | tBool
  | tString
  | tError
  | tCtxPtr
  | tAny
  | tPtr (t : GoType)
  | tSlice (t : GoType)
  | tArray (n : Nat) (t : GoType)
  deriving DecidableEq

/-- `reflect.Type.Kind()`.  `tCtxPtr` (the `*server.Context` type) has
pointer kind; the two interface types have interface kind. -/
def kindOf : GoType → GoKind
  | .tInt => .kInt
  | .tInt64 => .kInt64
  | .tBool => .kBool
  | .tString => .kString
  | .tError => .kIface
  | .tCtxPtr => .kPtr
  | .tAny => .kIface
  | .tPtr _ => .kPtr
  | .tSlice _ => .kSlice
  | .tArray _ _ => .kArray

/-- `reflect.Type.Name()`: the predeclared scalar types and `error` carry
their names; pointer, slice, array and the empty interface types are
unnamed, so `Name()` is the empty string. -/
def typeName : GoType → String
  | .tInt => "int"
  | .tInt64 => "int64"
  | .tBool => "bool"
  | .tString => "string"
  | .tError => "error"
  | .tCtxPtr => ""
  | .tAny => ""
  | .tPtr _ => ""
  | .tSlice _ => ""
  | .tArray _ _ => ""

/-- `reflect.Type.Elem()` for pointer types.  `tCtxPtr`'s element type is
the `server.Context` struct, which is not itself one of the wire-visible
types modelled here, so it yields `none` (it can never equal a modelled
target type). -/
def ptrElem : GoType → Option GoType
  | .tPtr t => some t
  | _ => none

/-- Go values as seen through `reflect`.  Only pointer and interface
types have nil values (`vNilPtr t` is a nil `*t`, `vNilCtxPtr` a nil
`*Context`, `vNilError` / `vNilAny` nil interface slots); a nil slice is
`vSlice t []` (it still has its slice type).  Elements of a
`vSlice .tAny` carry their own dynamic types, exactly like the elements
of a Go `[]interface\x7b\x7d`.  `vInvalid` is the invalid zero
`reflect.Value` (e.g. what `reflect.Indirect` returns for a nil pointer):
it has no type and every use of it — `Type()`, `Set`, `Interface()` —
faults. -/
inductive GoValue where
  | vInt (n : Int)
  | vInt64 (n : Int)
  | vBool (b : Bool)
  | vString (s : String)
  | vNilPtr (t : GoType)
  | vNilCtxPtr
  | vNilError
  | vNilAny
  | vInvalid
  | vPtr (v : GoValue)
  | vSlice (t : GoType) (xs : List GoValue)
  | vArray (t : GoType) (xs : List GoValue)

/-- `reflect.Value.Type()`.  A Go array value always has the length of its
type, so the type of `vArray t xs` is the array type of length `xs.length`.
`Type()` on the invalid Value faults in Go; to keep this function total,
`vInvalid` maps to a dummy (`tAny`) — every context that would call
`Type()` on a possibly-invalid value checks `isInvalidVal` first, or
faults at `Set` through `settable`. -/
def typeOf : GoValue → GoType
  | .vInt _ => .tInt
  | .vInt64 _ => .tInt64
  | .vBool _ => .tBool
  | .vString _ => .tString
  | .vNilPtr t => .tPtr t
  | .vNilCtxPtr => .tCtxPtr
  | .vNilError => .tError
  | .vNilAny => .tAny
  | .vInvalid => .tAny
  | .vPtr v => .tPtr (typeOf v)
  | .vSlice t _ => .tSlice t
  | .vArray t xs => .tArray xs.length t

/-- `reflect.Zero(t)` / `reflect.New(t).Elem()`: the zero value of a type. -/
def zeroValue : GoType → GoValue
  | .tInt => .vInt 0
  | .tInt64 => .vInt64 0
  | .tBool => .vBool false
  | .tString => .vString ""
  | .tError => .vNilError
  | .tCtxPtr => .vNilCtxPtr
  | .tAny => .vNilAny
  | .tPtr t => .vNilPtr t
  | .tSlice t => .vSlice t []
  | .tArray n t => .vArray t (List.replicate n (zeroValue t))

/-- Go's `string(rune)` conversion: a valid code point becomes its one-rune
string, anything else becomes the replacement character U+FFFD. -/
def intToRuneString (n : Int) : String :=
  if 0 ≤ n ∧ (n.toNat < 0xd800 ∨ (0xe000 ≤ n.toNat ∧ n.toNat < 0x110000)) then
    String.singleton (Char.ofNat n.toNat)
  else
    String.singleton (Char.ofNat 0xfffd)

/-- `reflect.Value.CanConvert` restricted to the modelled types: identity,
the numeric conversions between `int` and `int64`, Go's integer-to-string
(rune) conversion, and conversion of any type to `interface\x7b\x7d`.
No modelled pair is byte-slice/string convertible (no byte slices are
modelled), slices and arrays convert only to their identical types in the
repository's go 1.17 setting. -/
def canConvert (a b : GoType) : Bool :=
  if a = b then true
  else
    match a, b with
    | .tInt, .tInt64 => true
    | .tInt64, .tInt => true
    | .tInt, .tString => true
    | .tInt64, .tString => true
    | _, .tAny => true
    | _, _ => false

/-- `reflect.Value.Convert` for the pairs accepted by `canConvert`.
Converting to `interface\x7b\x7d` boxes the value, which leaves the
dynamic value unchanged. -/
def convertVal (v : GoValue) (t : GoType) : GoValue :=
  match v, t with
  | .vInt n, .tInt64 => .vInt64 n
  | .vInt64 n, .tInt => .vInt n
  | .vInt n, .tString => .vString (intToRuneString n)
  | .vInt64 n, .tString => .vString (intToRuneString n)
  | v, _ => v

/-- Whether handing this dynamic value to `reflect.ValueOf` yields the
invalid zero `Value`: true for the nil interface (a nil `error` boxed
into `interface\x7b\x7d` is the nil interface too) and for the invalid
Value itself.  Calling `Type()` on the invalid Value faults. -/
def isInvalidVal : GoValue → Bool
  | .vNilAny => true
  | .vNilError => true
  | .vInvalid => true
  | _ => false

/-- Go assignability as used by `reflect.Value.Set`: `Set` of the invalid
zero `Value` always faults; otherwise the value's dynamic type must equal
the destination type, or the destination must be the empty interface. -/
def settable (v : GoValue) (t : GoType) : Bool :=
  match v with
  | .vInvalid => false
  | _ => typeOf v = t ∨ t = .tAny

/-- Result of running `reflectutil.Convert` / `reflectutil.ConvertSlice`:
a value, the `cannot convert ... to ...` error return carrying the two
types, or a runtime fault (a failed type assertion or `Set` panic). -/
inductive CRes where
  | ok (v : GoValue)
  | convErr (src dst : GoType)
  | panicked

/-- One iteration of `ConvertSlice`'s array branch (utils.go lines
162-182): `inVal := reflect.ValueOf(in[i])` followed by
`inVal.Type() == outVal.Type()` (line 169) — on a nil interface element
`ValueOf` yields the invalid Value and that `Type()` call faults
(`none`); otherwise keep a type-equal element, convert when `CanConvert`
allows, or write the zero value.  This branch never calls `Convert`. -/
def arrayElemConv (elemT : GoType) (x : GoValue) : Option GoValue :=
  if isInvalidVal x then none
  else if typeOf x = elemT then some x
  else if canConvert (typeOf x) elemT then some (convertVal x elemT)
  else some (zeroValue elemT)

/-- The index loop of the array branch (utils.go lines 162-182): one
`arrayElemConv` per element; a faulting element (`none`) aborts the
loop. -/
def convertArrayElems (xs : List GoValue) (elemT : GoType) : Option (List GoValue) :=
  match xs with
  | [] => some []
  | x :: rest =>
    match arrayElemConv elemT x with
    | none => none
    | some w =>
      match convertArrayElems rest elemT with
      | none => none
      | some ws => some (w :: ws)

mutual

/-- `reflectutil.Convert` (utils.go lines 33-121).  Notes on fidelity:
* every call site in the repository passes a value obtained from
  `reflect.ValueOf`, which is never addressable, so the `CanAddr` branch
  of the pointer case is dead and both sub-branches produce a pointer to
  (a copy of) the input;
* none of the modelled types implements `encoding.TextUnmarshaler` or
  `encoding.BinaryUnmarshaler`, so those two branches never fire;
* no modelled type has map kind, so the `mapstructure` branch never fires;
* the argument stands for a valid `reflect.Value`: every call site in the
  repository either guards against nil before calling (`arg != nil` in
  `execute`, the `resp.Return == nil` early return in `Call`) or has
  already called `Type()` on the same value (the `ConvertSlice` loops),
  which faults first on the invalid Value — so `Convert` itself never
  receives one;
* a nil pointer reaching the dereference case makes `reflect.Indirect`
  return the invalid zero `Value` (`vInvalid`), which `Convert` returns
  with a nil error exactly as the source does; the fault then happens at
  the caller's `Set` / `Interface()` on that value (`settable` rejects
  it);
* the final guard keeps Go's `&&`/`||` grouping:
  `(in.Type() == []any && to.Kind() == Slice) || to.Kind() == Array`,
  and inside it `in.Interface().([]any)` faults whenever the input's
  dynamic type is not `[]any` (a `[]any`-typed value is always a
  `vSlice .tAny` here: nil values only inhabit pointer and interface
  types). -/
def Convert (v : GoValue) (toType : GoType) : CRes :=
  if typeOf v = toType then .ok v
  else if GoType.tPtr (typeOf v) = toType then .ok (.vPtr v)
  else if ptrElem (typeOf v) = some toType then
    match v with
    | .vPtr inner => .ok inner
    | _ => .ok .vInvalid
  else if canConvert (typeOf v) toType then .ok (convertVal v toType)
  else if (typeOf v = GoType.tSlice .tAny ∧ kindOf toType = .kSlice) ∨
      kindOf toType = .kArray then
    match v with
    | .vSlice .tAny xs => ConvertSlice xs toType
    | _ => .panicked
  else .convErr (typeOf v) toType
termination_by (sizeOf v, 0)

/-- `reflectutil.ConvertSlice` (utils.go lines 125-187).  The slice branch
appends one converted element per input element; the array branch runs
only when the target length equals the input length and converts each
index in place; any other target type leaves the freshly created zero
value untouched and returns it.  A fault inside an element's step — a
nil interface element's `Type()`, a `Set` of an invalid Value, or a
panic inside `Convert` — propagates: the Go panic aborts the whole
conversion. -/
def ConvertSlice (xs : List GoValue) (toType : GoType) : CRes :=
  match toType with
  | .tSlice elemT =>
    match convertElems xs elemT with
    | some vs => .ok (.vSlice elemT vs)
    | none => .panicked
  | .tArray n elemT =>
    if n = xs.length then
      match convertArrayElems xs elemT with
      | some ys => .ok (.vArray elemT ys)
      | none => .panicked
    else .ok (zeroValue (.tArray n elemT))
  | t => .ok (zeroValue t)
termination_by (sizeOf xs, 2)

/-- The element loop of `ConvertSlice`'s slice branch (utils.go lines
135-157): one `stepElem` per element; a faulting step (`none`) aborts the
loop. -/
def convertElems (xs : List GoValue) (elemT : GoType) : Option (List GoValue) :=
  match xs with
  | [] => some []
  | x :: rest =>
    match stepElem x elemT with
    | none => none
    | some w =>
      match convertElems rest elemT with
      | none => none
      | some ws => some (w :: ws)
termination_by (sizeOf xs, 1)

/-- One iteration of the slice-branch loop (utils.go lines 137-156):
`inVal := reflect.ValueOf(in[i])` then `inVal.Type() == outType`
(line 142) — on a nil interface element that `Type()` call faults
(`none`); otherwise a type-equal element is kept, else `Convert` runs;
an error result is replaced by the zero value and iteration continues;
an `ok` result is `Set` into the fresh element, faulting (`none`) when
not assignable — in particular for the invalid Value a nil-pointer
dereference produced — as a `Convert` fault does. -/
def stepElem (x : GoValue) (elemT : GoType) : Option GoValue :=
  if isInvalidVal x then none
  else if typeOf x = elemT then some x
  else
    match Convert x elemT with
    | .ok nv => if settable nv elemT then some nv else none
    | .convErr _ _ => some (zeroValue elemT)
    | .panicked => none
termination_by (sizeOf x, 1)

end

/-! ## Wire types (internal/types) -/

/-- `types.ResponseType`: Normal=0, Error=1, Channel=2, ChannelDone=3.
The zero value, used when a `Response` literal omits the field, is
`Normal`. -/
inductive ResponseType where
  | Normal
  | Error
  | Channel
  | ChannelDone
  deriving DecidableEq

/-- The wire discriminator values (a small unsigned integer 0..3). -/
def ResponseType.toNat : ResponseType → Nat
  | .Normal => 0
  | .Error => 1
  | .Channel => 2
  | .ChannelDone => 3

/-- `types.Response` as used by the server (enum revision).  The Go field
`Type` is spelled `rtype` because `Type` is reserved in Lean.  `Return`
holds the dynamically-typed return payload handed to the codec
(`none` models Go `nil`).  Defaults are the Go zero values, so a literal
that omits `rtype` is a Normal response, exactly as in the source. -/
structure Response where
  rtype : ResponseType := .Normal
  ID : String := ""
  Error : String := ""
  Return : Option GoValue := none

/-! ## Server: per-call Context (server/context.go) -/

/-- `server.Context`.  `doneClosed` records whether `doneCh` has been
closed; the push-queue (`channel`) is not stored here — the values it
delivered before closing are handed to `forwarder` directly. -/
structure Context where
  isChannel : Bool := false
  channelID : String := ""
  canceled : Bool := false
  doneClosed : Bool := false
  deriving DecidableEq

/-- `Context.Cancel` (context.go lines 140-143): set `canceled` and then
`close(ctx.doneCh)` — unconditionally.  Go's `close` on an already-closed
channel faults, which the `none` result models; the `if` below is that
runtime fault, not a guard present in the source. -/
def Context.Cancel (ctx : Context) : Option Context :=
  if ctx.doneClosed then none
  else some { ctx with canceled := true, doneClosed := true }

/-- The server's active-channel map `contexts : map[string]*Context`.
A Go map never holds two bindings for one key, so erasure removes every
binding with the key. -/
def CtxMap := List (String × Context)

/-- Map lookup `ctx, ok := s.contexts[id]`. -/
def lookupCtx (m : CtxMap) (id : String) : Option Context :=
  (m.find? (fun p => p.1 == id)).map (fun p => p.2)

/-- Map deletion `delete(s.contexts, id)`. -/
def eraseCtx (m : CtxMap) (id : String) : CtxMap :=
  m.filter (fun p => p.1 != id)

/-! ## Server: channel forwarder and built-in receiver (server/server.go) -/

/-- The response the forwarder encodes for one pushed value: the literal
`Response\x7bID: ctx.channelID, Return: val\x7d`, whose omitted `Type`
field is the zero value `Normal`. -/
def pushResponse (chID : String) (v : GoValue) : Response :=
  { ID := chID, Return := some v }

/-- The channel forwarder goroutine (server/server.go lines 336-361).
Given the values the push-queue delivered before the handler closed it,
it encodes one Normal response per value in order, then cancels the
context, deletes the channel ID from the active-channel map and encodes
a single ChannelDone response.  If the context was already cancelled
(`Cancel` faults), the goroutine dies after the pushed values: nothing is
deleted and no ChannelDone response is encoded — the `none` outcome. -/
def forwarder (vals : List GoValue) (ctx : Context) (contexts : CtxMap) :
    List Response × Option (Context × CtxMap) :=
  let pushes := vals.map (pushResponse ctx.channelID)
  match ctx.Cancel with
  | none => (pushes, none)
  | some ctx2 =>
    (pushes ++ [{ rtype := .ChannelDone, ID := ctx.channelID }],
      some (ctx2, eraseCtx contexts ctx.channelID))

/-- The built-in `lrpc.ChannelDone` handler (server/server.go lines
389-402): look the ID up in the active-channel map; a missing entry is an
immediate plain return (the RPC then answers Normal with no error);
otherwise cancel the context and delete the entry.  The `none` outcome is
the runtime fault of `Cancel` on an already-cancelled context. -/
def ChannelDone (contexts : CtxMap) (id : String) : Option CtxMap :=
  match lookupCtx contexts id with
  | none => some contexts
  | some ctx =>
    match ctx.Cancel with
    | none => none
    | some _ => some (eraseCtx contexts id)

/-! ## Server: method validation and registration (server/server.go) -/

/-- The type of a method value obtained from `Value.MethodByName`: its
input types (the receiver is already bound, so `ins.head?` is `In(0)`)
and its output types. -/
structure MtdType where
  ins : List GoType
  outs : List GoType
  deriving DecidableEq

/-- `mtdValid` (server/server.go lines 479-507): at most two and at least
one input; at most two outputs; `In(0)` must be the `*Context` type; with
exactly two outputs, `Out(1).Name()` must be the string `error`. -/
def mtdValid (m : MtdType) : Bool :=
  if m.ins.length > 2 ∨ m.ins.length < 1 then false
  else if m.outs.length > 2 then false
  else if m.ins.head? ≠ some GoType.tCtxPtr then false
  else if m.outs.length = 2 ∧ typeName (m.outs.getD 1 .tAny) ≠ "error" then false
  else true

/-- The server error values of server/server.go. -/
inductive SrvErr where
  | invalidType
  | noSuchReceiver
  | noSuchMethod
  | invalidMethod
  | unexpectedArgument
  deriving DecidableEq

/-- The dispatch gate of `execute` (server/server.go line 117): a method
that fails `mtdValid` is rejected with `ErrInvalidMethod` before being
called. -/
def executeMtdGate (m : MtdType) : Option SrvErr :=
  if mtdValid m then none else some SrvErr.invalidMethod

namespace oldtypes

/-- `types.Response` in the revision the client of client/client.go
decodes: boolean discriminators instead of the enum, and a
dynamically-typed `Return` payload. -/
structure Response where
  ID : String := ""
  ChannelDone : Bool := false
  IsChannel : Bool := false
  IsError : Bool := false
  Error : String := ""
  Return : Option GoValue := none

end oldtypes

/-- The `ret interface\x7b\x7d` argument of `Client.Call`, as
`reflect.ValueOf(ret).Kind()` classifies it: a channel whose element type
is `elem`, a pointer to a location of type `target`, or a value of any
other kind. -/
inductive RetSink where
  | chanSink (elem : GoType)
  | ptrSink (target : GoType)
  | otherSink

/-- The outcome of `Client.Call` after the response arrives: `ok` is a nil
error; `errStr msg` is `errors.New(resp.Error)`; the named errors are the
client error values; `errConvert` is the error propagated from
`reflectutil.Convert`; `fault` is a runtime fault (failed type assertion
or `Set` panic). -/
inductive CallOut where
  | ok
  | errStr (msg : String)
  | errReturnNotChannel
  | errReturnNotPointer
  | errConvert (src dst : GoType)
  | fault

/-- `Client.Call` from the receipt of its response (client/client.go lines
96-206).  State: the call-site map is modelled by its key set `chs`; the
result carries the updated key set, the value written through the return
sink (`none` when the sink is untouched) and the returned error.  The
entry for the call ID is closed and deleted first; an Error response
returns `errors.New(resp.Error)`; a nil `Return` returns nil at once; a
Channel response requires a channel sink, asserts the payload to be the
channel-ID string and registers it (the spawned consumer goroutine is a
separate process and not part of this function's effects); otherwise a
pointer sink is required and the payload is converted to and written at
its element type. -/
def callHandleResponse (chs : List String) (id : String) (resp : oldtypes.Response)
    (ret : RetSink) : List String × Option GoValue × CallOut :=
  let chs1 := chs.filter (fun s => s != id)
  if resp.IsError then (chs1, none, .errStr resp.Error)
  else
    match resp.Return with
    | none => (chs1, none, .ok)
    | some rv =>
      if resp.IsChannel then
        match ret with
        | .chanSink _ =>
          match rv with
          | .vString chID => (chID :: chs1, none, .ok)
          | _ => (chs1, none, .fault)
        | _ => (chs1, none, .errReturnNotChannel)
      else
        match ret with
        | .ptrSink target =>
          if typeOf rv = target then (chs1, some rv, .ok)
          else
            match Convert rv target with
            | .ok nv => if settable nv target then (chs1, some nv, .ok) else (chs1, none, .fault)
            | .convErr a b => (chs1, none, .errConvert a b)
            | .panicked => (chs1, none, .fault)
        | _ => (chs1, none, .errReturnNotPointer)

/-- The value the slice branch of `ConvertSlice` stores for one input
element when no fault occurs: the element itself when its type already
matches, otherwise `Convert`'s result, with the zero value replacing a
conversion error.  (Statement vocabulary: this is the "conversion of
input element i" of the element-wise description.) -/
def sliceElemConv (elemT : GoType) (x : GoValue) : GoValue :=
  if typeOf x = elemT then x
  else
    match Convert x elemT with
    | .ok nv => nv
    | _ => zeroValue elemT

/-- The value the array branch of `ConvertSlice` stores for one non-nil
input element: the element itself when its type already matches,
otherwise the `CanConvert` conversion, otherwise the zero value.
(Statement vocabulary for the array half of the element-wise
description.) -/
def arrayElemSpec (elemT : GoType) (x : GoValue) : GoValue :=
  if typeOf x = elemT then x
  else if canConvert (typeOf x) elemT then convertVal x elemT
  else zeroValue elemT

/-- Whether one element of the slice branch triggers a runtime fault
(statement vocabulary): a nil interface element faults at its `Type()`
call; an element whose `Convert` call panics (the `[]any` assertion)
aborts; and an element whose successful conversion is not assignable —
the invalid Value produced by dereferencing a nil pointer — faults at
`Set`. -/
def elemFaults (elemT : GoType) (x : GoValue) : Bool :=
  isInvalidVal x ||
    (if typeOf x = elemT then false
     else
       match Convert x elemT with
       | .ok nv => !(settable nv elemT)
       | .convErr _ _ => false
       | .panicked => true)

/-! ## Helper lemmas -/

theorem tPtr_ne (t : GoType) : GoType.tPtr t ≠ t := by
  intro h
  have hs := congrArg sizeOf h
  simp at hs

theorem tPtr_tPtr_ne (t : GoType) : GoType.tPtr (GoType.tPtr t) ≠ t := by
  intro h
  have hs := congrArg sizeOf h
  simp at hs
  omega

theorem ptrElem_eq_some (t u : GoType) : ptrElem t = some u ↔ t = .tPtr u := by
  cases t <;> simp [ptrElem]

theorem canConvert_array (a : GoType) (n : Nat) (e : GoType) (h : a ≠ .tArray n e) :
    canConvert a (.tArray n e) = false := by
  unfold canConvert
  rw [if_neg h]
  cases a <;> rfl

theorem typeName_eq_error (t : GoType) : typeName t = "error" ↔ t = .tError := by
  cases t <;> simp [typeName]

theorem typeOf_zeroValue (t : GoType) : typeOf (zeroValue t) = t := by
  cases t <;> simp [zeroValue, typeOf]

theorem ConvertSlice_slice_eq (xs : List GoValue) (e : GoType) :
    ConvertSlice xs (.tSlice e) =
      match convertElems xs e with
      | some vs => .ok (.vSlice e vs)
      | none => .panicked := by
  unfold ConvertSlice
  rfl

theorem ConvertSlice_array_eq (xs : List GoValue) (n : Nat) (e : GoType) :
    ConvertSlice xs (.tArray n e) =
      if n = xs.length then
        match convertArrayElems xs e with
        | some ys => CRes.ok (.vArray e ys)
        | none => CRes.panicked
      else .ok (zeroValue (.tArray n e)) := by
  unfold ConvertSlice
  rfl

theorem ConvertSlice_default_eq (xs : List GoValue) (t : GoType)
    (hs : ∀ e, t ≠ GoType.tSlice e) (ha : ∀ n e, t ≠ GoType.tArray n e) :
    ConvertSlice xs t = .ok (zeroValue t) := by
  cases t <;>
    first
      | (unfold ConvertSlice; rfl)
      | exact absurd rfl (hs _)
      | exact absurd rfl (ha _ _)

theorem convertElems_nil_eq (elemT : GoType) : convertElems [] elemT = some [] := by
  unfold convertElems
  rfl

theorem convertElems_cons_eq (x : GoValue) (rest : List GoValue) (elemT : GoType) :
    convertElems (x :: rest) elemT =
      match stepElem x elemT with
      | none => none
      | some w =>
        match convertElems rest elemT with
        | none => none
        | some ws => some (w :: ws) := by
  conv_lhs => unfold convertElems

theorem lookupCtx_eraseCtx (m : CtxMap) (id : String) :
    lookupCtx (eraseCtx m id) id = none := by
  rw [lookupCtx, Option.map_eq_none', List.find?_eq_none]
  intro x hx
  have hm := List.mem_filter.1 hx
  simpa using hm.2

/-! ## Claim theorems -/

/-- **C10.** `Context.Cancel` unconditionally closes the done channel and
is not idempotent: cancelling a not-yet-cancelled context closes its done
channel, a second `Cancel` of any successfully cancelled context faults
(close of a closed channel), and in particular after a client-initiated
`lrpc.ChannelDone` cancels a live channel context, the forwarder's own
cancel of the same context after the push-queue closes faults, so the
same context is cancelled twice (and the terminal ChannelDone response is
never encoded). -/
theorem Cancel_close_of_closed :
    (∀ c : Context, c.doneClosed = false →
      Context.Cancel c = some { c with canceled := true, doneClosed := true }) ∧
    (∀ c c2 : Context, Context.Cancel c = some c2 → Context.Cancel c2 = none) ∧
    (∀ (m : CtxMap) (id : String) (c : Context) (vals : List GoValue),
      lookupCtx m id = some c → c.doneClosed = false →
      ChannelDone m id = some (eraseCtx m id) ∧
      forwarder vals { c with canceled := true, doneClosed := true } (eraseCtx m id) =
        (vals.map (pushResponse c.channelID), none)) := by
  refine ⟨?_, ?_, ?_⟩
  · intro c h
    simp [Context.Cancel, h]
  · intro c c2 h
    unfold Context.Cancel at h
    by_cases hc : c.doneClosed
    · rw [if_pos hc] at h
      cases h
    · rw [if_neg hc] at h
      have hh := Option.some.inj h
      subst hh
      simp [Context.Cancel]
  · intro m id c vals h1 h2
    constructor
    · simp [ChannelDone, h1, Context.Cancel, h2]
    · simp [forwarder, Context.Cancel]

/-- **C10 witness.** A concrete live channel context: the client's
`ChannelDone` removes it and cancels it, and the forwarder's later cancel
of the same context faults, emitting only the pushed value and no
ChannelDone response. -/
theorem Cancel_close_of_closed_witness :
    lookupCtx [(("c1"), ({ channelID := "c1" } : Context))] ("c1") =
      some { channelID := "c1" } ∧
    ({ channelID := "c1" } : Context).doneClosed = false ∧
    ChannelDone [(("c1"), ({ channelID := "c1" } : Context))] ("c1") = some [] ∧
    forwarder [.vInt 7] { channelID := "c1", canceled := true, doneClosed := true } [] =
      ([{ ID := "c1", Return := some (.vInt 7) }], none) := by
  refine ⟨rfl, rfl, ?_⟩
  have h := (Cancel_close_of_closed.2.2) [(("c1"), ({ channelID := "c1" } : Context))]
    ("c1") { channelID := "c1" } [.vInt 7] rfl rfl
  exact h

/-- **C3.** The built-in `lrpc.ChannelDone` is a no-op returning no error
on an ID absent from the active-channel map, and a second call with the
same ID after a first call removed the entry also succeeds with no
error. -/
theorem ChannelDone_idempotent :
    (∀ (m : CtxMap) (id : String), lookupCtx m id = none → ChannelDone m id = some m) ∧
    (∀ (m : CtxMap) (id : String) (c : Context),
      lookupCtx m id = some c → c.doneClosed = false →
      ChannelDone m id = some (eraseCtx m id) ∧
      ChannelDone (eraseCtx m id) id = some (eraseCtx m id)) := by
  constructor
  · intro m id h
    simp [ChannelDone, h]
  · intro m id c h1 h2
    refine ⟨by simp [ChannelDone, h1, Context.Cancel, h2], ?_⟩
    simp [ChannelDone, lookupCtx_eraseCtx]

/-- **C3 witness.** An unknown ID is a no-op, and a double `ChannelDone`
on a live channel ID succeeds both times. -/
theorem ChannelDone_idempotent_witness :
    lookupCtx [(("a"), ({} : Context))] ("b") = none ∧
    ChannelDone [(("a"), ({} : Context))] ("b") = some [(("a"), ({} : Context))] ∧
    ChannelDone [(("a"), ({} : Context))] ("a") = some [] ∧
    ChannelDone [] ("a") = some [] := by
  refine ⟨rfl, ?_, ?_⟩
  · exact (ChannelDone_idempotent.1) [(("a"), ({} : Context))] ("b") rfl
  · exact (ChannelDone_idempotent.2) [(("a"), ({} : Context))] ("a") {} rfl rfl

/-- **C1.** The forwarder of a channel whose push-queue delivered
`vals` in order and was then closed by the handler (so the context is
still uncancelled) encodes one Normal response per value, in order, each
carrying the value under the channel ID; it then cancels the context,
removes the channel ID from the active-channel map, and encodes exactly
one ChannelDone response with the channel ID after all the Normal
responses. -/
theorem forwarder_trace (vals : List GoValue) (ctx : Context) (m : CtxMap)
    (h : ctx.doneClosed = false) :
    forwarder vals ctx m =
      (vals.map (pushResponse ctx.channelID) ++
        [{ rtype := .ChannelDone, ID := ctx.channelID }],
        some ({ ctx with canceled := true, doneClosed := true }, eraseCtx m ctx.channelID)) ∧
    (∀ v, pushResponse ctx.channelID v =
      { rtype := .Normal, ID := ctx.channelID, Return := some v }) ∧
    List.countP (fun r => r.rtype == ResponseType.ChannelDone) (forwarder vals ctx m).1 = 1 := by
  have hmain : forwarder vals ctx m =
      (vals.map (pushResponse ctx.channelID) ++
        [{ rtype := .ChannelDone, ID := ctx.channelID }],
        some ({ ctx with canceled := true, doneClosed := true }, eraseCtx m ctx.channelID)) := by
    simp [forwarder, Context.Cancel, h]
  refine ⟨hmain, fun v => rfl, ?_⟩
  rw [hmain]
  simp [List.countP_append, List.countP_cons, List.countP_eq_zero, pushResponse]

/-- **C1 witness.** A two-value channel produces two Normal responses in
push order followed by the single ChannelDone, and the channel ID leaves
the map. -/
theorem forwarder_trace_witness :
    ({ channelID := "c9" } : Context).doneClosed = false ∧
    forwarder [.vInt 1, .vInt 2] { channelID := "c9" }
        [(("c9"), ({ channelID := "c9" } : Context))] =
      ([{ ID := "c9", Return := some (.vInt 1) },
        { ID := "c9", Return := some (.vInt 2) },
        { rtype := .ChannelDone, ID := "c9" }],
        some ({ channelID := "c9", canceled := true, doneClosed := true }, [])) := by
  refine ⟨rfl, ?_⟩
  exact (forwarder_trace [.vInt 1, .vInt 2] { channelID := "c9" }
    [(("c9"), ({ channelID := "c9" } : Context))] rfl).1

/-- **C5.** When the response for an outstanding call carries the error
discriminator, `Call` removes the call's entry from the call-site map and
returns a (non-nil) error whose message is the response's `Error` field;
the caller-supplied return sink is never written. -/
theorem Call_error_response (chs : List String) (id : String) (resp : oldtypes.Response)
    (ret : RetSink) (h : resp.IsError = true) :
    callHandleResponse chs id resp ret =
      (chs.filter (fun s => s != id), none, .errStr resp.Error) ∧
    ∀ msg, CallOut.errStr msg ≠ CallOut.ok := by
  refine ⟨by simp [callHandleResponse, h], ?_⟩
  intro msg hmsg
  cases hmsg

/-- **C5 witness.** A concrete error response: the entry disappears, the
error text comes back, and the sink stays untouched even though it is a
writable pointer. -/
theorem Call_error_response_witness :
    ({ IsError := true, Error := "boom" } : oldtypes.Response).IsError = true ∧
    callHandleResponse [("id1"), ("id2")] ("id1")
        { IsError := true, Error := "boom" } (.ptrSink .tInt) =
      ([("id2")], none, .errStr ("boom")) := by
  refine ⟨rfl, ?_⟩
  exact (Call_error_response [("id1"), ("id2")] ("id1")
    { IsError := true, Error := "boom" } (.ptrSink .tInt) rfl).1

/-- **C8.** A Normal response with a nil `Return` payload makes `Call`
return nil without touching the caller-supplied sink, whatever that sink
is; consequently `ErrReturnNotPointer` can only arise from a Normal
response whose `Return` payload is non-nil. -/
theorem Call_nil_return (chs : List String) (id : String) (resp : oldtypes.Response)
    (ret : RetSink) :
    (resp.IsError = false → resp.IsChannel = false → resp.Return = none →
      callHandleResponse chs id resp ret = (chs.filter (fun s => s != id), none, .ok)) ∧
    ((callHandleResponse chs id resp ret).2.2 = .errReturnNotPointer →
      resp.IsError = false ∧ resp.IsChannel = false ∧ resp.Return ≠ none) := by
  constructor
  · intro h1 h2 h3
    simp [callHandleResponse, h1, h3]
  · intro h
    by_cases e1 : resp.IsError
    · simp [callHandleResponse, e1] at h
    · rcases hr : resp.Return with _ | rv
      · simp [callHandleResponse, e1, hr] at h
      · by_cases e2 : resp.IsChannel
        · exfalso
          cases ret <;> cases rv <;> simp [callHandleResponse, e1, hr, e2] at h
        · refine ⟨by simpa using e1, by simpa using e2, by simp [hr]⟩

/-- **C8 witness.** A Normal nil-payload response succeeds even with a
non-pointer sink, and a Normal response with a payload and a non-pointer
sink is the `ErrReturnNotPointer` case. -/
theorem Call_nil_return_witness :
    callHandleResponse [("a")] ("a") ({} : oldtypes.Response) .otherSink = ([], none, .ok) ∧
    (callHandleResponse [] ("a") { Return := some (.vInt 5) } .otherSink).2.2 =
      CallOut.errReturnNotPointer ∧
    (({} : oldtypes.Response).IsError = false ∧
      ({} : oldtypes.Response).IsChannel = false ∧
      ({ Return := some (.vInt 5) } : oldtypes.Response).Return ≠ none) := by
  refine ⟨?_, rfl, rfl, rfl, ?_⟩
  · exact (Call_nil_return [("a")] ("a") ({} : oldtypes.Response) .otherSink).1 rfl rfl rfl
  · exact ((Call_nil_return [] ("a") { Return := some (.vInt 5) } .otherSink).2 rfl).2.2

/-- **C2.** `mtdValid` accepts a method value exactly when it has one or
two inputs, its first input is the `*Context` type, it has at most two
outputs, and — when it has exactly two outputs — the second is the
`error` type; `execute` rejects every other method with
`ErrInvalidMethod`. -/
theorem mtdValid_shape (m : MtdType) :
    (mtdValid m = true ↔
      ((m.ins.length = 1 ∨ m.ins.length = 2) ∧ m.ins.head? = some GoType.tCtxPtr ∧
        m.outs.length ≤ 2 ∧ (m.outs.length = 2 → m.outs.getD 1 .tAny = .tError))) ∧
    (mtdValid m = false → executeMtdGate m = some SrvErr.invalidMethod) := by
  constructor
  · unfold mtdValid
    split_ifs with h1 h2 h3 h4
    · simp only [Bool.false_eq_true, false_iff]
      intro hc
      rcases hc with ⟨hlen, _⟩
      omega
    · simp only [Bool.false_eq_true, false_iff]
      intro hc
      omega
    · simp only [Bool.false_eq_true, false_iff]
      intro hc
      exact h3 hc.2.1
    · simp only [Bool.false_eq_true, false_iff]
      intro hc
      rcases h4 with ⟨hl2, hname⟩
      exact hname ((typeName_eq_error _).2 (hc.2.2.2 hl2))
    · simp only [true_iff]
      push_neg at h1 h4
      refine ⟨by omega, by simpa using h3, by omega, ?_⟩
      intro hl2
      exact (typeName_eq_error _).1 (h4 hl2)
  · intro h
    simp [executeMtdGate, h]

/-- **C2 witness.** A two-input, two-output method with `*Context` first
and `error` second is valid; a method whose first input is not `*Context`
is invalid and rejected at dispatch with `ErrInvalidMethod`. -/
theorem mtdValid_shape_witness :
    mtdValid { ins := [.tCtxPtr, .tInt], outs := [.tInt, .tError] } = true ∧
    mtdValid { ins := [.tInt], outs := [] } = false ∧
    executeMtdGate { ins := [.tInt], outs := [] } = some SrvErr.invalidMethod := by
  refine ⟨?_, by decide, ?_⟩
  · exact ((mtdValid_shape { ins := [.tCtxPtr, .tInt], outs := [.tInt, .tError] }).1).mpr
      (by decide)
  · exact (mtdValid_shape { ins := [.tInt], outs := [] }).2 (by decide)

/-- **C7.** `Convert` turns a value of type T into a pointer to that value
when the target is `*T`, and dereferences a non-nil pointer when the
target is its pointee type; composing the two is the identity: converting
`v` to `*T` yields `vPtr v`, and converting `vPtr v` back to `T` yields
`v` again. -/
theorem Convert_ptr_roundtrip (v : GoValue) :
    Convert v (.tPtr (typeOf v)) = .ok (.vPtr v) ∧
    Convert (.vPtr v) (typeOf v) = .ok v := by
  constructor
  · have h1 : ¬ typeOf v = GoType.tPtr (typeOf v) := fun h => tPtr_ne (typeOf v) h.symm
    unfold Convert
    rw [if_neg h1, if_pos rfl]
  · have h1 : ¬ typeOf (GoValue.vPtr v) = typeOf v := by
      simp only [typeOf]
      exact tPtr_ne (typeOf v)
    have h2 : ¬ GoType.tPtr (typeOf (GoValue.vPtr v)) = typeOf v := by
      simp only [typeOf]
      exact tPtr_tPtr_ne (typeOf v)
    have h3 : ptrElem (typeOf (GoValue.vPtr v)) = some (typeOf v) := rfl
    unfold Convert
    rw [if_neg h1, if_neg h2, if_pos h3]

theorem ConvertSlice_ne_convErr (xs : List GoValue) (t s d : GoType) :
    ConvertSlice xs t ≠ .convErr s d := by
  unfold ConvertSlice
  cases t <;> try simp
  case tSlice e =>
    rcases hce : convertElems xs e with _ | vs <;> simp [hce]
  case tArray n2 e =>
    split_ifs
    · rcases hca : convertArrayElems xs e with _ | ys <;> simp [hca]
    · simp

/-- **C9.** In `Convert`, Go's operator precedence groups the slice/array
guard as (input is `[]any` AND target is a slice) OR (target is an
array): for an array target not handled by the identity, pointer or
`CanConvert` cases the branch is taken regardless of the input's type,
so the unguarded `[]any` assertion faults for every input that is not a
`[]any`, a `[]any` input reaches `ConvertSlice` even for array targets,
and the final "cannot convert" error return is unreachable for array
targets. -/
theorem Convert_array_assert (n : Nat) (e : GoType) :
    (∀ v : GoValue, typeOf v ≠ .tArray n e → typeOf v ≠ .tPtr (.tArray n e) →
      typeOf v ≠ .tSlice .tAny → Convert v (.tArray n e) = .panicked) ∧
    (∀ xs : List GoValue, Convert (.vSlice .tAny xs) (.tArray n e) =
      ConvertSlice xs (.tArray n e)) ∧
    (∀ (v : GoValue) (s d : GoType), Convert v (.tArray n e) ≠ .convErr s d) := by
  refine ⟨?_, ?_, ?_⟩
  · intro v h1 h2 h3
    have hc2 : ¬ GoType.tPtr (typeOf v) = GoType.tArray n e := by simp
    have hc3 : ¬ ptrElem (typeOf v) = some (GoType.tArray n e) := by
      intro hp
      exact h2 ((ptrElem_eq_some _ _).1 hp)
    have hc4 : ¬ canConvert (typeOf v) (GoType.tArray n e) = true := by
      rw [canConvert_array _ _ _ h1]
      simp
    unfold Convert
    rw [if_neg h1, if_neg hc2, if_neg hc3, if_neg hc4,
      if_pos (Or.inr rfl :
        (typeOf v = GoType.tSlice .tAny ∧ kindOf (.tArray n e) = .kSlice) ∨
          kindOf (GoType.tArray n e) = .kArray)]
    cases v <;> try rfl
    case vSlice t xs =>
      cases t <;> first | rfl | exact absurd rfl h3
  · intro xs
    have g1 : ¬ typeOf (GoValue.vSlice .tAny xs) = GoType.tArray n e := by
      simp [typeOf]
    have g2 : ¬ GoType.tPtr (typeOf (GoValue.vSlice .tAny xs)) = GoType.tArray n e := by
      simp
    have g3 : ¬ ptrElem (typeOf (GoValue.vSlice .tAny xs)) = some (GoType.tArray n e) := by
      simp [typeOf, ptrElem]
    have g4 : ¬ canConvert (typeOf (GoValue.vSlice .tAny xs)) (GoType.tArray n e) = true := by
      show ¬ canConvert (GoType.tSlice .tAny) (GoType.tArray n e) = true
      rw [canConvert_array _ _ _ (by simp)]
      simp
    unfold Convert
    rw [if_neg g1, if_neg g2, if_neg g3, if_neg g4,
      if_pos (Or.inr rfl :
        (typeOf (GoValue.vSlice .tAny xs) = GoType.tSlice .tAny ∧
          kindOf (.tArray n e) = .kSlice) ∨ kindOf (GoType.tArray n e) = .kArray)]
  · intro v s d h
    unfold Convert at h
    by_cases c1 : typeOf v = GoType.tArray n e
    · rw [if_pos c1] at h
      exact CRes.noConfusion h
    · rw [if_neg c1] at h
      by_cases c2 : GoType.tPtr (typeOf v) = GoType.tArray n e
      · rw [if_pos c2] at h
        exact CRes.noConfusion h
      · rw [if_neg c2] at h
        by_cases c3 : ptrElem (typeOf v) = some (GoType.tArray n e)
        · rw [if_pos c3] at h
          cases v <;> exact CRes.noConfusion h
        · rw [if_neg c3] at h
          by_cases c4 : canConvert (typeOf v) (GoType.tArray n e) = true
          · rw [if_pos c4] at h
            exact CRes.noConfusion h
          · rw [if_neg c4] at h
            rw [if_pos (Or.inr rfl :
              (typeOf v = GoType.tSlice .tAny ∧ kindOf (.tArray n e) = .kSlice) ∨
                kindOf (GoType.tArray n e) = .kArray)] at h
            cases v <;> try exact CRes.noConfusion h
            next t xs =>
              cases t <;>
                first
                  | exact CRes.noConfusion h
                  | exact ConvertSlice_ne_convErr xs _ s d h

/-- **C9 witness.** A `bool` input with a `[2]int` target reaches the
unguarded assertion and faults; a `[]any` input with a `[1]int` target is
handed to `ConvertSlice` by the same branch. -/
theorem Convert_array_assert_witness :
    typeOf (.vBool true) ≠ GoType.tArray 2 .tInt ∧
    Convert (.vBool true) (.tArray 2 .tInt) = .panicked ∧
    Convert (.vSlice .tAny [.vBool true]) (.tArray 1 .tInt) =
      ConvertSlice [.vBool true] (.tArray 1 .tInt) := by
  refine ⟨by decide, ?_, ?_⟩
  · exact (Convert_array_assert 2 .tInt).1 (.vBool true) (by decide) (by decide) (by decide)
  · exact (Convert_array_assert 1 .tInt).2.1 [.vBool true]

theorem arrayElemConv_eq (x : GoValue) (t : GoType) (hx : isInvalidVal x = false) :
    arrayElemConv t x = some (arrayElemSpec t x) := by
  unfold arrayElemConv arrayElemSpec
  rw [if_neg (by simp [hx])]
  by_cases he : typeOf x = t
  · rw [if_pos he, if_pos he]
  · rw [if_neg he, if_neg he]
    by_cases hc : canConvert (typeOf x) t = true
    · rw [if_pos hc, if_pos hc]
    · rw [if_neg hc, if_neg hc]

theorem convertArrayElems_eq_map (xs : List GoValue) (t : GoType)
    (h : ∀ x ∈ xs, isInvalidVal x = false) :
    convertArrayElems xs t = some (xs.map (arrayElemSpec t)) := by
  induction xs with
  | nil => rfl
  | cons x rest ih =>
    have hx := arrayElemConv_eq x t (h x (List.mem_cons_self x rest))
    have hr := ih (fun y hy => h y (List.mem_cons_of_mem x hy))
    unfold convertArrayElems
    rw [hx, hr]
    rfl

theorem stepElem_eq_sliceElemConv (x : GoValue) (t : GoType)
    (hx : elemFaults t x = false) :
    stepElem x t = some (sliceElemConv t x) := by
  unfold elemFaults at hx
  have hinv : isInvalidVal x = false := by
    cases hiv : isInvalidVal x
    · rfl
    · rw [hiv] at hx
      simp at hx
  rw [hinv, Bool.false_or] at hx
  unfold stepElem sliceElemConv
  rw [if_neg (by simp [hinv])]
  by_cases he : typeOf x = t
  · rw [if_pos he, if_pos he]
  · rw [if_neg he] at hx
    rw [if_neg he, if_neg he]
    cases hc : Convert x t with
    | ok nv =>
      rw [hc] at hx
      have hs : settable nv t = true := by simpa using hx
      simp [hs]
    | convErr a b => rfl
    | panicked =>
      rw [hc] at hx
      simp at hx

theorem convertElems_eq_map (xs : List GoValue) (t : GoType)
    (h : ∀ x ∈ xs, elemFaults t x = false) :
    convertElems xs t = some (xs.map (sliceElemConv t)) := by
  induction xs with
  | nil => exact convertElems_nil_eq t
  | cons x rest ih =>
    have hx := stepElem_eq_sliceElemConv x t (h x (List.mem_cons_self x rest))
    have hrest := ih (fun y hy => h y (List.mem_cons_of_mem x hy))
    rw [convertElems_cons_eq, hx, hrest]
    rfl

/-- **C6 (amended).** `ConvertSlice` to a slice target converts
element-wise: when no element triggers a runtime fault — a nil interface
element (`Type()` on the invalid Value faults), an element whose
successful conversion is not assignable (the invalid Value produced by
dereferencing a nil pointer faults at `Set`), or an element whose
`Convert` call panics (the `[]any` assertion) — the result's element at
each index is the input element when types match, else `Convert`'s
result, else (on a conversion error) the zero element, and a failing
element never aborts the rest; any such fault aborts the whole
conversion.  For an array target the element-wise conversion (identity
or `CanConvert` only, with the same nil-element fault) runs only when
the target length equals the input length; on a length mismatch the zero
value of the whole array type is returned instead. -/
theorem ConvertSlice_elementwise :
    (∀ (xs : List GoValue) (t : GoType),
      (∀ x ∈ xs, elemFaults t x = false) →
      ConvertSlice xs (.tSlice t) = .ok (.vSlice t (xs.map (sliceElemConv t)))) ∧
    (∀ (xs : List GoValue) (t : GoType),
      (∀ x ∈ xs, isInvalidVal x = false) →
      ConvertSlice xs (.tArray xs.length t) =
        .ok (.vArray t (xs.map (arrayElemSpec t)))) ∧
    (∀ (xs : List GoValue) (n : Nat) (t : GoType), n ≠ xs.length →
      ConvertSlice xs (.tArray n t) = .ok (zeroValue (.tArray n t))) := by
  refine ⟨?_, ?_, ?_⟩
  · intro xs t h
    rw [ConvertSlice_slice_eq, convertElems_eq_map xs t h]
  · intro xs t h
    rw [ConvertSlice_array_eq, if_pos rfl, convertArrayElems_eq_map xs t h]
  · intro xs n t hn
    rw [ConvertSlice_array_eq, if_neg hn]

/-- **C6 counterexample.** Four failures of the element-wise description
as originally stated: (a) a one-element input against the array type
`[2]int` — element 0 converts fine (`Convert 1 int` succeeds with `1`),
yet `ConvertSlice` returns the zero array `[0, 0]`, so the result's
element at index 0 is not the conversion of input element 0; (b) a
`bool` element against the slice type `[][1]int` — the element's
`Convert` hits the `[]any` assertion fault, aborting the whole
conversion instead of zeroing that element and continuing; (c) a nil
interface element against `[]int` (and against `[1]int` in the array
branch) — `Type()` on the invalid `reflect.Value` faults instead of
zeroing and continuing; (d) a nil `*int` element against `[]int` —
`Indirect` yields the invalid Value and the `Set` of it faults, again
aborting the conversion. -/
theorem ConvertSlice_length_mismatch_cex :
    (ConvertSlice [GoValue.vInt 1] (GoType.tArray 2 .tInt) =
      .ok (.vArray .tInt [.vInt 0, .vInt 0]) ∧
    Convert (GoValue.vInt 1) GoType.tInt = .ok (.vInt 1)) ∧
    ConvertSlice [GoValue.vBool true] (GoType.tSlice (.tArray 1 .tInt)) = .panicked ∧
    ConvertSlice [GoValue.vNilAny] (GoType.tSlice .tInt) = .panicked ∧
    ConvertSlice [GoValue.vNilAny] (GoType.tArray 1 .tInt) = .panicked ∧
    ConvertSlice [GoValue.vNilPtr .tInt] (GoType.tSlice .tInt) = .panicked := by
  refine ⟨⟨?_, ?_⟩, ?_, ?_, ?_, ?_⟩
  · unfold ConvertSlice
    rfl
  · unfold Convert
    rfl
  · rw [ConvertSlice_slice_eq, convertElems_cons_eq]
    have hc : Convert (.vBool true) (.tArray 1 .tInt) = .panicked := by
      unfold Convert
      rfl
    have hs : stepElem (.vBool true) (.tArray 1 .tInt) = none := by
      unfold stepElem
      rw [if_neg (by decide), if_neg (by decide), hc]
    rw [hs]
  · rw [ConvertSlice_slice_eq, convertElems_cons_eq]
    have hs : stepElem .vNilAny .tInt = none := by
      unfold stepElem
      rw [if_pos (by decide)]
    rw [hs]
  · unfold ConvertSlice
    rfl
  · rw [ConvertSlice_slice_eq, convertElems_cons_eq]
    have hc : Convert (.vNilPtr .tInt) .tInt = .ok .vInvalid := by
      unfold Convert
      rfl
    have hs : stepElem (.vNilPtr .tInt) .tInt = none := by
      unfold stepElem
      rw [if_neg (by decide), if_neg (by decide), hc]
      rfl
    rw [hs]

/-- **C6 witness.** A two-element `[]any` into `[]int`: the `int64`
element converts to `3`, the `bool` element fails and becomes the zero
element `0`, and the conversion still covers the whole slice; an
equal-length `[1]int` target converts element-wise; a length-mismatched
`[2]bool` target yields the zero array. -/
theorem ConvertSlice_elementwise_witness :
    (∀ x ∈ [GoValue.vInt64 3, GoValue.vBool true],
      elemFaults GoType.tInt x = false) ∧
    ConvertSlice [GoValue.vInt64 3, GoValue.vBool true] (GoType.tSlice .tInt) =
      .ok (.vSlice .tInt [.vInt 3, .vInt 0]) ∧
    ConvertSlice [GoValue.vInt64 5] (GoType.tArray 1 .tInt) =
      .ok (.vArray .tInt [.vInt 5]) ∧
    ConvertSlice [GoValue.vBool true] (GoType.tArray 2 .tBool) =
      .ok (zeroValue (GoType.tArray 2 .tBool)) := by
  have hyp : ∀ x ∈ [GoValue.vInt64 3, GoValue.vBool true],
      elemFaults GoType.tInt x = false := by
    intro x hx
    simp only [List.mem_cons, List.not_mem_nil, or_false] at hx
    rcases hx with rfl | rfl
    · simp [elemFaults, Convert, typeOf, isInvalidVal, settable, ptrElem, canConvert,
        convertVal, kindOf]
    · simp [elemFaults, Convert, typeOf, isInvalidVal, settable, ptrElem, canConvert,
        convertVal, kindOf]
  refine ⟨hyp, ?_, ?_, ?_⟩
  · have h := ConvertSlice_elementwise.1 [GoValue.vInt64 3, GoValue.vBool true] .tInt hyp
    rw [h]
    have hm : List.map (sliceElemConv .tInt) [GoValue.vInt64 3, GoValue.vBool true] =
        [.vInt 3, .vInt 0] := by
      simp [sliceElemConv, Convert, typeOf, ptrElem, canConvert, convertVal, kindOf, zeroValue]
    rw [hm]
  · have h2 : ∀ x ∈ [GoValue.vInt64 5], isInvalidVal x = false := by
      intro x hx
      simp only [List.mem_cons, List.not_mem_nil, or_false] at hx
      subst hx
      rfl
    exact ConvertSlice_elementwise.2.1 [GoValue.vInt64 5] .tInt h2
  · exact ConvertSlice_elementwise.2.2 [GoValue.vBool true] 2 .tBool (by decide)
end LRPC
